import Mathlib

/-!
# Verification of the selection-box subsystem of wolf-gang-rs

Shallow embedding of `src/systems/selection_box.rs`: the camera-axis
resolver, the movement/expansion delta engine, the update-coalescing
protocol, the reconciliation (update-bounds) system, the tile-tool
validation gate and the outline-mesh margin computation, together with
proofs of the specified properties.

Machine `i32` coordinates are modelled as `Int` (the values involved are
tiny, far from overflow); `f32` values are modelled as `Option ℚ` where
`none` stands for NaN and arithmetic propagates NaN as IEEE-754 does.
-/

/-- Integer 3-vector, the embedding of `nalgebra::Vector3<i32>`
(aliased `Point` in the source). -/
@[ext]
structure V3 where
  x : ℤ
  y : ℤ
  z : ℤ
deriving DecidableEq, Repr

def V3.zero : V3 := ⟨0, 0, 0⟩

def V3.add (a b : V3) : V3 := ⟨a.x + b.x, a.y + b.y, a.z + b.z⟩

def V3.sub (a b : V3) : V3 := ⟨a.x - b.x, a.y - b.y, a.z - b.z⟩

def V3.smul (k : ℤ) (a : V3) : V3 := ⟨k * a.x, k * a.y, k * a.z⟩

instance : Add V3 := ⟨V3.add⟩

instance : Sub V3 := ⟨V3.sub⟩

/-- Modelled from the spec: the `octree` crate's `AABB<i32>` (repository
code that is not under `src/`) is an axis-aligned box stored as an
integer `center` plus integer `dimensions` (possibly negative, §3 of the
spec). -/
@[ext]
structure AABB where
  center : V3
  dimensions : V3
deriving DecidableEq, Repr

def AABB.new (center dimensions : V3) : AABB := ⟨center, dimensions⟩

/-- Modelled from the spec: the `octree` crate's `AABB::get_min` (not
under `src/`) — the grid cell of the box corner at the low end of each
axis, `center - dimensions/2` componentwise on the integer grid. -/
def AABB.get_min (a : AABB) : V3 :=
  ⟨a.center.x - a.dimensions.x / 2,
   a.center.y - a.dimensions.y / 2,
   a.center.z - a.dimensions.z / 2⟩

/-- Modelled from the spec: the `octree` crate's `AABB::get_max` (not
under `src/`) — the inclusive grid cell of the box corner at the high
end of each axis (`get_min + dimensions - (1,1,1)`, matching the
`get_max() + (1,1,1)` outer-corner convention visible in the mesh
generator). -/
def AABB.get_max (a : AABB) : V3 :=
  ⟨a.center.x - a.dimensions.x / 2 + a.dimensions.x - 1,
   a.center.y - a.dimensions.y / 2 + a.dimensions.y - 1,
   a.center.z - a.dimensions.z / 2 + a.dimensions.z - 1⟩

/-! ## Float model: `f32` as `Option ℚ`, `none` = NaN -/

/-- `f32` modelled as `Option ℚ`; `none` stands for NaN. -/
abbrev FVal := Option ℚ

def FVal.fadd (a b : FVal) : FVal :=
  match a, b with
  | some a, some b => some (a + b)
  | _, _ => none

def FVal.fmul (a b : FVal) : FVal :=
  match a, b with
  | some a, some b => some (a * b)
  | _, _ => none

def FVal.fneg (a : FVal) : FVal :=
  match a with
  | some a => some (-a)
  | none => none

/-- Rust `f32` `<` : false whenever either operand is NaN. -/
def FVal.flt (a b : FVal) : Bool :=
  match a, b with
  | some a, some b => decide (a < b)
  | _, _ => false

/-- `PartialOrd::partial_cmp` on `f32`: `None` iff either operand is NaN. -/
def FVal.fcmp (a b : FVal) : Option Ordering :=
  match a, b with
  | some a, some b =>
    some (if a < b then .lt else if b < a then .gt else .eq)
  | _, _ => none

/-- Rust `f32::round` followed by `as i32`: round half away from zero,
NaN casts to 0. -/
def FVal.fround (a : FVal) : ℤ :=
  match a with
  | some q => if q < 0 then -(Rat.floor (-q + 1/2)) else Rat.floor (q + 1/2)
  | none => 0

/-- Float 3-vector, the embedding of `nalgebra::Vector3<f32>`
(aliased `Vector3D` in the source). -/
@[ext]
structure V3F where
  x : FVal
  y : FVal
  z : FVal
deriving DecidableEq, Repr

def V3F.dot (a b : V3F) : FVal :=
  (a.x.fmul b.x).fadd ((a.y.fmul b.y).fadd (a.z.fmul b.z))

def V3F.neg (a : V3F) : V3F := ⟨a.x.fneg, a.y.fneg, a.z.fneg⟩

/-- The four horizontal cardinal candidates `Vector3D::z()`, `-z`, `x`, `-x`. -/
def V3F.unitZ : V3F := ⟨some 0, some 0, some 1⟩

def V3F.unitX : V3F := ⟨some 1, some 0, some 0⟩

/-- `CameraAdjustedDirection` component: per-volume cached forward/right pair. -/
structure CameraAdjustedDirection where
  forward : V3F
  right : V3F
deriving DecidableEq, Repr

/-- The default `CameraAdjustedDirection`: forward `z`, right `x`. -/
def CameraAdjustedDirection.default : CameraAdjustedDirection :=
  ⟨V3F.unitZ, V3F.unitX⟩

/-! ## `expansion_movement_helper` (selection_box.rs:1313-1360) -/

/-- One component of the zero-crossing re-seed in
`expansion_movement_helper`: after `dimensions += expansion`, a component
that equals zero gets `expansion * 2` added. -/
def reseed_component (d e : ℤ) : ℤ :=
  if d + e = 0 then d + e + e * 2 else d + e

/-- The mutated dimensions produced by `expansion_movement_helper`. -/
def expansion_new_dimensions (dimensions expansion : V3) : V3 :=
  ⟨reseed_component dimensions.x expansion.x,
   reseed_component dimensions.y expansion.y,
   reseed_component dimensions.z expansion.z⟩

/-- The swapped per-axis corner pair `(min, max)` used by
`expansion_movement_helper`: when `swap` is set the min/max values trade
places on that axis. -/
def swapped_pair (swap : Bool) (lo hi : ℤ) : ℤ × ℤ :=
  if swap then (hi, lo) else (lo, hi)

/-- One axis of the translation returned by `expansion_movement_helper`:
`new_max - max` when the new dimension is negative, else `new_min - min`,
on the (possibly swapped) corner values. -/
def expansion_diff_component (newDim : ℤ) (swap : Bool) (lo hi newLo newHi : ℤ) : ℤ :=
  if newDim < 0 then (swapped_pair swap newLo newHi).2 - (swapped_pair swap lo hi).2
  else (swapped_pair swap newLo newHi).1 - (swapped_pair swap lo hi).1

/-- `expansion_movement_helper`: mutates the box dimensions by the
expansion delta (re-seeding any component that lands on zero by
`2 * delta`), and returns the anchor-preserving translation to subtract
from the origin, computed from the camera-right-sign-swapped min/max
corners. Returns `(mutated aabb, returned Point)`. -/
def expansion_movement_helper (expansion : V3) (camera_adjusted_dir : CameraAdjustedDirection)
    (aabb : AABB) : AABB × V3 :=
  (⟨aabb.center, expansion_new_dimensions aabb.dimensions expansion⟩,
   ⟨expansion_diff_component (expansion_new_dimensions aabb.dimensions expansion).x
      (camera_adjusted_dir.right.x.flt (some 0))
      aabb.get_min.x aabb.get_max.x
      (AABB.new aabb.center (expansion_new_dimensions aabb.dimensions expansion)).get_min.x
      (AABB.new aabb.center (expansion_new_dimensions aabb.dimensions expansion)).get_max.x,
    expansion_diff_component (expansion_new_dimensions aabb.dimensions expansion).y
      false
      aabb.get_min.y aabb.get_max.y
      (AABB.new aabb.center (expansion_new_dimensions aabb.dimensions expansion)).get_min.y
      (AABB.new aabb.center (expansion_new_dimensions aabb.dimensions expansion)).get_max.y,
    expansion_diff_component (expansion_new_dimensions aabb.dimensions expansion).z
      (camera_adjusted_dir.right.z.flt (some 0))
      aabb.get_min.z aabb.get_max.z
      (AABB.new aabb.center (expansion_new_dimensions aabb.dimensions expansion)).get_min.z
      (AABB.new aabb.center (expansion_new_dimensions aabb.dimensions expansion)).get_max.z⟩)

/-- A selection-box volume's replicated bounds state: grid origin
(`CoordPos`) plus the `SelectionBox` aabb. -/
structure BoxState where
  coordPos : V3
  aabb : AABB
deriving DecidableEq, Repr

/-- One expansion applied as `create_expansion_system` applies it: call
the helper on the current aabb, then `move_to_pos = coord_pos - diff`
with the mutated dimensions. -/
def expansion_step (cam : CameraAdjustedDirection) (st : BoxState) (expansion : V3) : BoxState :=
  let r := expansion_movement_helper expansion cam st.aabb
  ⟨st.coordPos - r.2, r.1⟩

/-- A sequence of expansions applied in order. -/
def expansion_iter (cam : CameraAdjustedDirection) (st : BoxState) (es : List V3) : BoxState :=
  es.foldl (expansion_step cam) st

/-! ## The anchor corner (claim C1) -/

/-- The per-axis corner selector the expansion system effectively
anchors: on X and Z the min/max choice is flipped by the camera-right
sign swap, and `get_max` is the anchored side exactly when the
post-expansion dimension is negative (xor the swap). -/
def corner_select (newDims : V3) (swapx swapz : Bool) : Bool × Bool × Bool :=
  (decide (newDims.x < 0) != swapx,
   decide (newDims.y < 0),
   decide (newDims.z < 0) != swapz)

/-- The grid position of a selected corner of the volume's world box
(the box centered at `CoordPos` with the `SelectionBox` dimensions, the
box the tile tool submits): per axis the `get_max` corner when the
selector bit is set, else the `get_min` corner. -/
def anchor_corner (coordPos dims : V3) (sel : Bool × Bool × Bool) : V3 :=
  ⟨if sel.1 then (AABB.new coordPos dims).get_max.x else (AABB.new coordPos dims).get_min.x,
   if sel.2.1 then (AABB.new coordPos dims).get_max.y else (AABB.new coordPos dims).get_min.y,
   if sel.2.2 then (AABB.new coordPos dims).get_max.z else (AABB.new coordPos dims).get_min.z⟩

/-- One-axis core of the anchor argument: subtracting the helper's
translation from the origin puts the selected corner of the resized box
exactly where the selected corner of the original box was.  `o1`/`o2`
are the old/new half-dimension offsets, `d`/`d2` the old/new dimensions,
`aabbC` the helper aabb's own center (which cancels), `cpos` the live
origin. -/
theorem anchor_axis (cpos aabbC o1 o2 d d2 : ℤ) (swap : Bool) :
    (if (decide (d2 < 0) != swap) = true
      then (cpos - expansion_diff_component d2 swap (aabbC - o1) (aabbC - o1 + d - 1)
              (aabbC - o2) (aabbC - o2 + d2 - 1)) - o2 + d2 - 1
      else (cpos - expansion_diff_component d2 swap (aabbC - o1) (aabbC - o1 + d - 1)
              (aabbC - o2) (aabbC - o2 + d2 - 1)) - o2)
    = (if (decide (d2 < 0) != swap) = true then cpos - o1 + d - 1 else cpos - o1) := by
  cases swap <;> by_cases hd : d2 < 0 <;>
    simp [expansion_diff_component, swapped_pair, hd] <;> omega

@[simp] theorem V3.sub_x (a b : V3) : (a - b).x = a.x - b.x := rfl

@[simp] theorem V3.sub_y (a b : V3) : (a - b).y = a.y - b.y := rfl

@[simp] theorem V3.sub_z (a b : V3) : (a - b).z = a.z - b.z := rfl

@[simp] theorem V3.add_x (a b : V3) : (a + b).x = a.x + b.x := rfl

@[simp] theorem V3.add_y (a b : V3) : (a + b).y = a.y + b.y := rfl

@[simp] theorem V3.add_z (a b : V3) : (a + b).z = a.z + b.z := rfl

/-- A single expansion step leaves the selected anchor corner of the
world box exactly where it was. -/
theorem expansion_step_anchor (cam : CameraAdjustedDirection) (st : BoxState) (e : V3) :
    anchor_corner (expansion_step cam st e).coordPos (expansion_step cam st e).aabb.dimensions
        (corner_select (expansion_step cam st e).aabb.dimensions
          (cam.right.x.flt (some 0)) (cam.right.z.flt (some 0)))
      = anchor_corner st.coordPos st.aabb.dimensions
          (corner_select (expansion_step cam st e).aabb.dimensions
            (cam.right.x.flt (some 0)) (cam.right.z.flt (some 0))) := by
  apply V3.ext
  · have h := anchor_axis st.coordPos.x st.aabb.center.x (st.aabb.dimensions.x / 2)
      ((expansion_new_dimensions st.aabb.dimensions e).x / 2) st.aabb.dimensions.x
      (expansion_new_dimensions st.aabb.dimensions e).x (cam.right.x.flt (some 0))
    simpa [anchor_corner, corner_select, expansion_step, expansion_movement_helper,
      AABB.new, AABB.get_min, AABB.get_max] using h
  · have h := anchor_axis st.coordPos.y st.aabb.center.y (st.aabb.dimensions.y / 2)
      ((expansion_new_dimensions st.aabb.dimensions e).y / 2) st.aabb.dimensions.y
      (expansion_new_dimensions st.aabb.dimensions e).y false
    simpa [anchor_corner, corner_select, expansion_step, expansion_movement_helper,
      AABB.new, AABB.get_min, AABB.get_max] using h
  · have h := anchor_axis st.coordPos.z st.aabb.center.z (st.aabb.dimensions.z / 2)
      ((expansion_new_dimensions st.aabb.dimensions e).z / 2) st.aabb.dimensions.z
      (expansion_new_dimensions st.aabb.dimensions e).z (cam.right.z.flt (some 0))
    simpa [anchor_corner, corner_select, expansion_step, expansion_movement_helper,
      AABB.new, AABB.get_min, AABB.get_max] using h

/-- C1 (Expansion anchoring): for every starting bounds, every per-axis
expansion delta and every camera direction with its fixed `right.x`/
`right.z` signs, after any sequence of expansions a further expansion —
the helper's translation subtracted from the origin, together with the
mutated dimensions — leaves the anchor corner (min/max per axis swapped
on X when `right.x < 0` and on Z when `right.z < 0`) at the same grid
position as before that expansion. -/
theorem c1_expansion_anchor_fixed (cam : CameraAdjustedDirection) (st0 : BoxState)
    (es : List V3) (e : V3) :
    anchor_corner (expansion_step cam (expansion_iter cam st0 es) e).coordPos
        (expansion_step cam (expansion_iter cam st0 es) e).aabb.dimensions
        (corner_select (expansion_step cam (expansion_iter cam st0 es) e).aabb.dimensions
          (cam.right.x.flt (some 0)) (cam.right.z.flt (some 0)))
      = anchor_corner (expansion_iter cam st0 es).coordPos
          (expansion_iter cam st0 es).aabb.dimensions
          (corner_select (expansion_step cam (expansion_iter cam st0 es) e).aabb.dimensions
            (cam.right.x.flt (some 0)) (cam.right.z.flt (some 0))) :=
  expansion_step_anchor cam (expansion_iter cam st0 es) e

/-! ## Zero-crossing re-seed (claim C2) -/

theorem reseed_eq (d e : ℤ) : reseed_component d e = if d + e = 0 then 2 * e else d + e := by
  unfold reseed_component; split_ifs <;> omega

theorem reseed_ne_zero (d e : ℤ) (he : e ≠ 0) : reseed_component d e ≠ 0 := by
  unfold reseed_component; split_ifs <;> omega

/-- C2 as stated is false on the code: a box whose `dimensions.x` is
already 0 expanded by `+1` on X ends with `dimensions.x = 1`, not 2 (the
re-seed only fires when the post-delta sum lands on zero). -/
theorem c2_zero_dim_counterexample :
    ¬ ((expansion_movement_helper ⟨1, 0, 0⟩ CameraAdjustedDirection.default
        (AABB.new V3.zero ⟨0, 1, 1⟩)).1.dimensions.x = 2) := by decide

/-- C2 (amended): each dimension component becomes `dims + delta`,
except that a component landing exactly on zero is re-seeded to
`2 * delta`; hence a component the delta touches is never zero
afterwards, and `dimensions.x = -1` expanded by `+1` yields `2`. -/
theorem c2_zero_crossing_amended (aabb : AABB) (e : V3) (cam : CameraAdjustedDirection) :
    ((expansion_movement_helper e cam aabb).1.dimensions.x
        = if aabb.dimensions.x + e.x = 0 then 2 * e.x else aabb.dimensions.x + e.x)
    ∧ ((expansion_movement_helper e cam aabb).1.dimensions.y
        = if aabb.dimensions.y + e.y = 0 then 2 * e.y else aabb.dimensions.y + e.y)
    ∧ ((expansion_movement_helper e cam aabb).1.dimensions.z
        = if aabb.dimensions.z + e.z = 0 then 2 * e.z else aabb.dimensions.z + e.z)
    ∧ (e.x ≠ 0 → (expansion_movement_helper e cam aabb).1.dimensions.x ≠ 0)
    ∧ (e.y ≠ 0 → (expansion_movement_helper e cam aabb).1.dimensions.y ≠ 0)
    ∧ (e.z ≠ 0 → (expansion_movement_helper e cam aabb).1.dimensions.z ≠ 0)
    ∧ (aabb.dimensions.x = -1 → e.x = 1 → (expansion_movement_helper e cam aabb).1.dimensions.x = 2) := by
  refine ⟨reseed_eq _ _, reseed_eq _ _, reseed_eq _ _,
    fun h => reseed_ne_zero _ _ h, fun h => reseed_ne_zero _ _ h, fun h => reseed_ne_zero _ _ h,
    fun h1 h2 => ?_⟩
  show reseed_component aabb.dimensions.x e.x = 2
  rw [reseed_eq, h1, h2]
  norm_num

/-- Witness for C2 (amended) at `dimensions = (-1, 5, 5)`,
`delta = (1, 0, 2)`. -/
theorem c2_zero_crossing_amended_witness :
    (expansion_movement_helper ⟨1, 0, 2⟩ CameraAdjustedDirection.default
        (AABB.new V3.zero ⟨-1, 5, 5⟩)).1.dimensions.x = 2
    ∧ (expansion_movement_helper ⟨1, 0, 2⟩ CameraAdjustedDirection.default
        (AABB.new V3.zero ⟨-1, 5, 5⟩)).1.dimensions.z ≠ 0 :=
  ⟨(c2_zero_crossing_amended (AABB.new V3.zero ⟨-1, 5, 5⟩) ⟨1, 0, 2⟩
      CameraAdjustedDirection.default).2.2.2.2.2.2 (by decide) (by decide),
   (c2_zero_crossing_amended (AABB.new V3.zero ⟨-1, 5, 5⟩) ⟨1, 0, 2⟩
      CameraAdjustedDirection.default).2.2.2.2.2.1 (by decide)⟩

/-! ## AxisResolver: `get_forward_closest_axis` and
`create_orthogonal_dir_system` (claims C5, C6) -/

/-- Rational stand-in for the `f32` value of `cos(FRAC_PI_8)`. -/
def cos8 : ℚ := 92387953 / 100000000

/-- Rational stand-in for the `f32` value of `sin(FRAC_PI_8)`. -/
def sin8 : ℚ := 38268343 / 100000000

/-- `UnitQuaternion::from_axis_angle(y_axis, angle)` applied to a vector,
for an angle given by its cosine `c` and sine `s`:
`x' = x·c + z·s`, `y' = y`, `z' = -x·s + z·c`. -/
def rot_y (c s : FVal) (v : V3F) : V3F :=
  ⟨(v.x.fmul c).fadd (v.z.fmul s), v.y, ((v.x.fneg).fmul s).fadd (v.z.fmul c)⟩

/-- Rotation by exactly `-FRAC_PI_2` about the up axis
(`cos = 0`, `sin = -1`): `(x, y, z) ↦ (-z, y, x)`. -/
def rot_neg90 (v : V3F) : V3F := ⟨v.z.fneg, v.y, v.x⟩

/-- `get_forward_closest_axis` (selection_box.rs:220-242).  The final
`partial_cmp(..).unwrap()` is modelled by returning `none` when the two
adjusted dot products are incomparable (a `none` result is the panic).
The hysteresis rotation `adjust_angle * dir` for `dir ∈ {-1, 0, 1}` has
cosine `1` (dir = 0) or `cos8`, and sine `dir * sin8`, via the rational
stand-ins. -/
def get_forward_closest_axis (a b forward right : V3F) : Option Ordering :=
  let a_dot := a.dot right
  let b_dot := b.dot right
  let dot : FVal :=
    match FVal.fcmp a_dot b_dot with
    | none => some 0          -- If NaN just set it to 0
    | some .lt => a_dot
    | some _ => b_dot
  -- the sign `dir` is 0, -1 or 1; the rotation by `adjust_angle * dir`
  -- is recorded directly as its (cosine, sine) pair for those three
  -- cases: (1, 0), (cos8, -sin8), (cos8, sin8)
  let cs : ℚ × ℚ :=
    match FVal.fcmp dot (some 0) with
    | none => (1, 0)          -- If NaN just set it to 0
    | some .lt => (cos8, -sin8)
    | some _ => (cos8, sin8)
  let rotated := rot_y (some cs.1) (some cs.2) forward
  FVal.fcmp (a.dot rotated) (b.dot rotated)

/-- `std::cmp::min_by` with a comparator that can panic (`none`). -/
def min_by_axis (cmp : V3F → V3F → Option Ordering) (a b : V3F) : Option V3F :=
  match cmp a b with
  | none => none
  | some .gt => some b
  | some _ => some a

/-- The three-deep `min_by` tournament of
`create_orthogonal_dir_system` over the four cardinal candidates. -/
def resolve_forward (fflat right : V3F) : Option V3F :=
  (min_by_axis (fun lh rh => get_forward_closest_axis lh rh fflat right)
      V3F.unitX V3F.unitX.neg).bind fun m1 =>
    (min_by_axis (fun lh rh => get_forward_closest_axis lh rh fflat right)
        V3F.unitZ.neg m1).bind fun m2 =>
      min_by_axis (fun lh rh => get_forward_closest_axis lh rh fflat right)
        V3F.unitZ m2

/-- `Vector3::normalize`.  Only vectors of squared norm 1 reach it in
this system; on those normalization is the identity, and on any other
vector the irrational inverse length is not representable in the
rational float model, which we record as NaN components. -/
def fnormalize (v : V3F) : V3F :=
  match FVal.fcmp (v.dot v) (some 1) with
  | some .eq => v
  | _ => ⟨none, none, none⟩

/-- The per-volume body of `create_orthogonal_dir_system`: flatten the
camera forward to the horizontal plane, run the tournament, derive
`right` by rotating the winner by `-90°` about up, normalize both.
`none` models the comparator's `unwrap` panic. -/
def orthogonal_dir (dirForward dirRight : V3F) : Option CameraAdjustedDirection :=
  let fflat : V3F := ⟨dirForward.x, some 0, dirForward.z⟩
  (resolve_forward fflat dirRight).map fun fwd =>
    ⟨fnormalize fwd, fnormalize (rot_neg90 fwd)⟩

theorem min_by_axis_mem {cmp : V3F → V3F → Option Ordering} {a b v : V3F}
    (h : min_by_axis cmp a b = some v) : v = a ∨ v = b := by
  unfold min_by_axis at h
  rcases hc : cmp a b with _ | o
  · rw [hc] at h; cases h
  · rw [hc] at h; cases o <;> simp_all

theorem resolve_forward_mem {fflat right v : V3F}
    (h : resolve_forward fflat right = some v) :
    v = V3F.unitZ ∨ v = V3F.unitZ.neg ∨ v = V3F.unitX ∨ v = V3F.unitX.neg := by
  unfold resolve_forward at h
  rw [Option.bind_eq_some] at h
  obtain ⟨m1, hm1, h⟩ := h
  rw [Option.bind_eq_some] at h
  obtain ⟨m2, hm2, h⟩ := h
  rcases min_by_axis_mem h with h3 | h3
  · exact Or.inl h3
  rcases min_by_axis_mem hm2 with h4 | h4
  · exact Or.inr (Or.inl (h3 ▸ h4))
  rcases min_by_axis_mem hm1 with h5 | h5
  · exact Or.inr (Or.inr (Or.inl (h3 ▸ h4 ▸ h5)))
  · exact Or.inr (Or.inr (Or.inr (h3 ▸ h4 ▸ h5)))

/-- C5 (AxisResolver output basis): whenever the orthogonal-direction
computation produces a result (it faults only on NaN input reaching the
final comparison), the resolved forward is one of the four horizontal
cardinal unit axes, the resolved right is exactly the forward rotated
by `-90°` about the up axis, and the two are orthogonal unit vectors. -/
theorem c5_axis_resolver_basis (f r : V3F) (out : CameraAdjustedDirection)
    (h : orthogonal_dir f r = some out) :
    (out.forward = V3F.unitZ ∨ out.forward = V3F.unitZ.neg ∨
     out.forward = V3F.unitX ∨ out.forward = V3F.unitX.neg)
    ∧ out.right = rot_neg90 out.forward
    ∧ out.forward.dot out.right = some 0
    ∧ out.forward.dot out.forward = some 1
    ∧ out.right.dot out.right = some 1 := by
  unfold orthogonal_dir at h
  rw [Option.map_eq_some'] at h
  obtain ⟨fwd, hfwd, rfl⟩ := h
  rcases resolve_forward_mem hfwd with h4 | h4 | h4 | h4 <;> subst h4
  · refine ⟨Or.inl ?_, ?_, ?_, ?_, ?_⟩ <;>
      norm_num [fnormalize, rot_neg90, V3F.dot, V3F.neg, FVal.fmul, FVal.fadd, FVal.fneg,
        FVal.fcmp, V3F.unitZ, V3F.unitX]
  · refine ⟨Or.inr (Or.inl ?_), ?_, ?_, ?_, ?_⟩ <;>
      norm_num [fnormalize, rot_neg90, V3F.dot, V3F.neg, FVal.fmul, FVal.fadd, FVal.fneg,
        FVal.fcmp, V3F.unitZ, V3F.unitX]
  · refine ⟨Or.inr (Or.inr (Or.inl ?_)), ?_, ?_, ?_, ?_⟩ <;>
      norm_num [fnormalize, rot_neg90, V3F.dot, V3F.neg, FVal.fmul, FVal.fadd, FVal.fneg,
        FVal.fcmp, V3F.unitZ, V3F.unitX]
  · refine ⟨Or.inr (Or.inr (Or.inr ?_)), ?_, ?_, ?_, ?_⟩ <;>
      norm_num [fnormalize, rot_neg90, V3F.dot, V3F.neg, FVal.fmul, FVal.fadd, FVal.fneg,
        FVal.fcmp, V3F.unitZ, V3F.unitX]

/-- The concrete output of `orthogonal_dir` for a camera looking along
`+z` with right `+x` (used by the C5 witness). -/
def c5_cam_out : CameraAdjustedDirection :=
  ⟨⟨some 0, some 0, some (-1)⟩, ⟨some 1, some 0, some 0⟩⟩

set_option maxHeartbeats 2000000 in
theorem c5w_cmp1 :
    get_forward_closest_axis V3F.unitX V3F.unitX.neg ⟨some 0, some 0, some 1⟩
      ⟨some 1, some 0, some 0⟩ = some Ordering.lt := by
  norm_num [get_forward_closest_axis, rot_y, V3F.dot, V3F.neg, FVal.fmul, FVal.fadd,
    FVal.fneg, FVal.fcmp, V3F.unitZ, V3F.unitX, cos8, sin8]

set_option maxHeartbeats 2000000 in
theorem c5w_cmp2 :
    get_forward_closest_axis V3F.unitZ.neg V3F.unitX ⟨some 0, some 0, some 1⟩
      ⟨some 1, some 0, some 0⟩ = some Ordering.lt := by
  norm_num [get_forward_closest_axis, rot_y, V3F.dot, V3F.neg, FVal.fmul, FVal.fadd,
    FVal.fneg, FVal.fcmp, V3F.unitZ, V3F.unitX, cos8, sin8]

set_option maxHeartbeats 2000000 in
theorem c5w_cmp3 :
    get_forward_closest_axis V3F.unitZ V3F.unitZ.neg ⟨some 0, some 0, some 1⟩
      ⟨some 1, some 0, some 0⟩ = some Ordering.gt := by
  norm_num [get_forward_closest_axis, rot_y, V3F.dot, V3F.neg, FVal.fmul, FVal.fadd,
    FVal.fneg, FVal.fcmp, V3F.unitZ, V3F.unitX, cos8, sin8]

theorem c5w_norm1 : fnormalize V3F.unitZ.neg = V3F.unitZ.neg := by
  norm_num [fnormalize, V3F.dot, V3F.neg, FVal.fmul, FVal.fadd, FVal.fneg, FVal.fcmp,
    V3F.unitZ]

theorem c5w_norm2 : fnormalize (rot_neg90 V3F.unitZ.neg) = rot_neg90 V3F.unitZ.neg := by
  norm_num [fnormalize, rot_neg90, V3F.dot, V3F.neg, FVal.fmul, FVal.fadd, FVal.fneg,
    FVal.fcmp, V3F.unitZ]

theorem c5w_eval :
    orthogonal_dir ⟨some 0, some 0, some 1⟩ ⟨some 1, some 0, some 0⟩ = some c5_cam_out := by
  simp only [orthogonal_dir]
  norm_num only [resolve_forward, c5w_cmp1, c5w_cmp2, c5w_cmp3, min_by_axis,
    Option.some_bind, Option.map_some', c5w_norm1, c5w_norm2]
  norm_num [c5_cam_out, rot_neg90, V3F.neg, V3F.unitZ, FVal.fneg]

/-- Witness for C5 at camera forward `(0,0,1)`, right `(1,0,0)`. -/
theorem c5_axis_resolver_basis_witness :
    (c5_cam_out.forward = V3F.unitZ ∨ c5_cam_out.forward = V3F.unitZ.neg ∨
     c5_cam_out.forward = V3F.unitX ∨ c5_cam_out.forward = V3F.unitX.neg)
    ∧ c5_cam_out.right = rot_neg90 c5_cam_out.forward
    ∧ c5_cam_out.forward.dot c5_cam_out.right = some 0
    ∧ c5_cam_out.forward.dot c5_cam_out.forward = some 1
    ∧ c5_cam_out.right.dot c5_cam_out.right = some 1 :=
  c5_axis_resolver_basis ⟨some 0, some 0, some 1⟩ ⟨some 1, some 0, some 0⟩
    c5_cam_out c5w_eval

/-- A float vector with no NaN component. -/
def V3F.no_nan (v : V3F) : Prop := v.x ≠ none ∧ v.y ≠ none ∧ v.z ≠ none

theorem no_nan_exists {v : V3F} (h : v.no_nan) :
    ∃ qx qy qz : ℚ, v = ⟨some qx, some qy, some qz⟩ := by
  obtain ⟨h1, h2, h3⟩ := h
  rcases v with ⟨x, y, z⟩
  obtain ⟨qx, rfl⟩ := Option.ne_none_iff_exists'.mp h1
  obtain ⟨qy, rfl⟩ := Option.ne_none_iff_exists'.mp h2
  obtain ⟨qz, rfl⟩ := Option.ne_none_iff_exists'.mp h3
  exact ⟨qx, qy, qz, rfl⟩

/-- C6 as stated is false on the code: a NaN forward component reaches
the comparator's final `partial_cmp(..).unwrap()`, which panics (`none`
here) instead of resolving to a neutral value. -/
theorem c6_nan_comparator_counterexample :
    get_forward_closest_axis V3F.unitZ V3F.unitZ.neg
      ⟨none, some 0, some 0⟩ ⟨some 1, some 0, some 0⟩ = none := by decide

/-- C6 (amended): the two intermediate comparisons neutralize NaN to a
fixed 0 — in particular NaN anywhere in `right` never faults — and the
comparator returns an `Ordering` whenever the candidate axes and the
forward vector are NaN-free; only a NaN reaching the final adjusted dot
comparison faults. -/
theorem c6_nan_comparator_amended (a b f r : V3F)
    (ha : a.no_nan) (hb : b.no_nan) (hf : f.no_nan) :
    (get_forward_closest_axis a b f r).isSome = true := by
  obtain ⟨ax, ay, az, rfl⟩ := no_nan_exists ha
  obtain ⟨bx, bv, bz, rfl⟩ := no_nan_exists hb
  obtain ⟨fx, fy, fz, rfl⟩ := no_nan_exists hf
  simp [get_forward_closest_axis, rot_y, V3F.dot, FVal.fmul, FVal.fadd, FVal.fneg, FVal.fcmp]

/-- Witness for C6 (amended): NaN-free candidates and forward, with an
all-NaN right vector, still produce an `Ordering`. -/
theorem c6_nan_comparator_amended_witness :
    (get_forward_closest_axis V3F.unitZ V3F.unitZ.neg V3F.unitZ
      ⟨none, none, none⟩).isSome = true :=
  c6_nan_comparator_amended V3F.unitZ V3F.unitZ.neg V3F.unitZ ⟨none, none, none⟩
    ⟨by decide, by decide, by decide⟩ ⟨by decide, by decide, by decide⟩
    ⟨by decide, by decide, by decide⟩

/-! ## Discrete directional input and the per-tick scan loops of
`create_movement_system` / `create_expansion_system` (claims C3, C9, C10) -/

/-- The named input actions consulted by the selection-box systems. -/
inductive InputAction where
  | move_forward | move_back | move_left | move_right | move_up | move_down
  | expand_selection_forward | expand_selection_back | expand_selection_left
  | expand_selection_right | expand_selection_up | expand_selection_down
  | insertion | removal
  | other
deriving DecidableEq, Repr

/-- Membership in the movement system's six-action input filter. -/
def InputAction.is_move_action : InputAction → Bool
  | .move_forward | .move_back | .move_left | .move_right | .move_up | .move_down => true
  | _ => false

/-- Membership in the expansion system's six-action input filter. -/
def InputAction.is_expand_action : InputAction → Bool
  | .expand_selection_forward | .expand_selection_back | .expand_selection_left
  | .expand_selection_right | .expand_selection_up | .expand_selection_down => true
  | _ => false

/-- The camera-local movement delta of one movement action
(selection_box.rs:468-480). -/
def action_movement : InputAction → V3
  | .move_forward => ⟨0, 0, 1⟩
  | .move_back => ⟨0, 0, -1⟩
  | .move_left => ⟨-1, 0, 0⟩
  | .move_right => ⟨1, 0, 0⟩
  | .move_up => ⟨0, 1, 0⟩
  | .move_down => ⟨0, -1, 0⟩
  | _ => ⟨0, 0, 0⟩

/-- The camera-local expansion delta of one expansion action
(selection_box.rs:859-871). -/
def action_expansion : InputAction → V3
  | .expand_selection_forward => ⟨0, 0, 1⟩
  | .expand_selection_back => ⟨0, 0, -1⟩
  | .expand_selection_left => ⟨-1, 0, 0⟩
  | .expand_selection_right => ⟨1, 0, 0⟩
  | .expand_selection_up => ⟨0, 1, 0⟩
  | .expand_selection_down => ⟨0, -1, 0⟩
  | _ => ⟨0, 0, 0⟩

/-- Movement grid adjustment (selection_box.rs:482-495): rounded signed
horizontal components of forward/right scaled by the input's z/x,
vertical passed through. -/
def movement_adjusted (cam : CameraAdjustedDirection) (movement : V3) : V3 :=
  ⟨cam.forward.x.fround * movement.z + cam.right.x.fround * movement.x,
   movement.y,
   cam.forward.z.fround * movement.z + cam.right.z.fround * movement.x⟩

/-- Expansion grid adjustment (selection_box.rs:876-886): like movement
but with rounded absolute horizontal components. -/
def expansion_adjusted (cam : CameraAdjustedDirection) (expansion : V3) : V3 :=
  ⟨|cam.forward.x.fround| * expansion.z + |cam.right.x.fround| * expansion.x,
   expansion.y,
   |cam.forward.z.fround| * expansion.z + |cam.right.z.fround| * expansion.x⟩

/-- One selection-box entity as the movement/expansion/tile systems see
it: its client tag, cached camera basis, origin and bounds, plus whether
it carries the `TerrainToolBox` and `Active` marker components and
whether its `CoordPos` is in this tick's `maybe_changed` window. -/
structure Volume where
  clientId : ℕ
  cam : CameraAdjustedDirection
  coordPos : V3
  aabb : AABB
  terrain_tag : Bool
  active_tag : Bool
  coord_changed : Bool
deriving DecidableEq, Repr

/-- The common shape of the movement and expansion input loops: for each
eligible input event, iterate the matching volumes and overwrite the
single accumulator (`combined_movement` together with `entity`) with a
value computed from that input and volume; later writes win. -/
def last_write_scan {α : Type} (elig : InputAction × Bool → Bool) (volPred : Volume → Bool)
    (F : InputAction × Bool → Volume → α) (inputs : List (InputAction × Bool))
    (vols : List Volume) : Option α :=
  inputs.foldl
    (fun acc ia =>
      if elig ia then (vols.filter volPred).foldl (fun _ v => some (F ia v)) acc else acc)
    none

/-- What the spec says such a loop computes: the value of the
last-evaluated eligible input applied to the last-iterated matching
volume, and nothing when either is absent. -/
def last_write_spec {α : Type} (elig : InputAction × Bool → Bool) (volPred : Volume → Bool)
    (F : InputAction × Bool → Volume → α) (inputs : List (InputAction × Bool))
    (vols : List Volume) : Option α :=
  match (vols.filter volPred).getLast?, (inputs.filter elig).getLast? with
  | some v, some ia => some (F ia v)
  | _, _ => none

/-- The movement system's input/volume scan: any volume of this client
qualifies (no `Active` or tool-kind filter); the accumulator holds the
adjusted grid delta together with the `(coord_pos, selection_box)`
snapshot that the emission step uses. -/
def movement_scan (cid : ℕ) (inputs : List (InputAction × Bool)) (vols : List Volume) :
    Option (V3 × (V3 × AABB)) :=
  last_write_scan (fun ia => ia.1.is_move_action && ia.2)
    (fun v => v.clientId == cid)
    (fun ia v => (movement_adjusted v.cam (action_movement ia.1), (v.coordPos, v.aabb)))
    inputs vols

/-- The expansion system's input/volume scan: only volumes with both the
`TerrainToolBox` and `Active` marks (query filter) and this client's id
qualify. -/
def expansion_scan (cid : ℕ) (inputs : List (InputAction × Bool)) (vols : List Volume) :
    Option (V3 × (CameraAdjustedDirection × V3 × AABB)) :=
  last_write_scan (fun ia => ia.1.is_expand_action && ia.2)
    (fun v => v.terrain_tag && v.active_tag && v.clientId == cid)
    (fun ia v => (expansion_adjusted v.cam (action_expansion ia.1), (v.cam, v.coordPos, v.aabb)))
    inputs vols

theorem overwrite_foldl {α β : Type} (f : β → Option α) :
    ∀ (l : List β) (acc : Option α),
      l.foldl (fun _ v => f v) acc
        = (match l.getLast? with
           | some v => f v
           | none => acc)
  | [], _ => rfl
  | v :: t, acc => by
    rw [List.foldl_cons, overwrite_foldl f t]
    cases t <;> simp [List.getLast?]

theorem last_write_scan_eq {α : Type} (elig : InputAction × Bool → Bool)
    (volPred : Volume → Bool) (F : InputAction × Bool → Volume → α)
    (inputs : List (InputAction × Bool)) (vols : List Volume) :
    last_write_scan elig volPred F inputs vols
      = last_write_spec elig volPred F inputs vols := by
  unfold last_write_scan
  induction inputs using List.reverseRecOn with
  | nil =>
    rw [List.foldl_nil]
    cases hw : (vols.filter volPred).getLast? <;>
      simp [last_write_spec, hw]
  | append_singleton l ia ih =>
    rw [List.foldl_append, List.foldl_cons, List.foldl_nil, ih]
    cases he : elig ia with
    | false =>
      rw [if_neg (by simp)]
      simp [last_write_spec, List.filter_append, he]
    | true =>
      rw [if_pos rfl, overwrite_foldl]
      cases hw : (vols.filter volPred).getLast? with
      | none => simp [last_write_spec, hw]
      | some v =>
        simp [last_write_spec, hw, List.filter_append, he, List.getLast?_concat]

/-- C9 (Last-input-wins): when several directional inputs are eligible
in one tick, the movement (resp. expansion) scan produces exactly the
adjusted delta of the last-evaluated eligible input alone — the earlier
eligible input contributes nothing and no summation occurs. -/
theorem c9_last_input_wins (cid : ℕ) (inputs : List (InputAction × Bool)) (vols : List Volume)
    (m1 m2 e1 e2 : InputAction × Bool) :
    ((m2.1.is_move_action && m2.2) = true →
      ∀ v, (vols.filter (fun v => v.clientId == cid)).getLast? = some v →
        movement_scan cid (inputs ++ [m1, m2]) vols
          = some (movement_adjusted v.cam (action_movement m2.1), (v.coordPos, v.aabb)))
    ∧ ((e2.1.is_expand_action && e2.2) = true →
      ∀ w, (vols.filter (fun v => v.terrain_tag && v.active_tag && v.clientId == cid)).getLast?
          = some w →
        expansion_scan cid (inputs ++ [e1, e2]) vols
          = some (expansion_adjusted w.cam (action_expansion e2.1), (w.cam, w.coordPos, w.aabb))) := by
  constructor
  · intro h v hv
    rw [movement_scan, last_write_scan_eq]
    unfold last_write_spec
    rw [hv]
    have hlast : ((inputs ++ [m1, m2]).filter
        (fun ia => ia.1.is_move_action && ia.2)).getLast? = some m2 := by
      rw [show inputs ++ [m1, m2] = (inputs ++ [m1]) ++ [m2] by simp]
      rw [List.filter_append]
      simp [List.filter, h, List.getLast?_concat]
    rw [hlast]
  · intro h w hw
    rw [expansion_scan, last_write_scan_eq]
    unfold last_write_spec
    rw [hw]
    have hlast : ((inputs ++ [e1, e2]).filter
        (fun ia => ia.1.is_expand_action && ia.2)).getLast? = some e2 := by
      rw [show inputs ++ [e1, e2] = (inputs ++ [e1]) ++ [e2] by simp]
      rw [List.filter_append]
      simp [List.filter, h, List.getLast?_concat]
    rw [hlast]

/-- Concrete volume for the C9 witness. -/
def c9_vol : Volume :=
  ⟨7, CameraAdjustedDirection.default, V3.zero, AABB.new V3.zero ⟨1, 1, 1⟩, true, true, false⟩

/-- Witness for C9: forward+right movement pressed together yields the
right-input delta alone; up+left expansion yields the left delta alone. -/
theorem c9_last_input_wins_witness :
    movement_scan 7 [(.move_forward, true), (.move_right, true)] [c9_vol]
      = some (movement_adjusted c9_vol.cam (action_movement .move_right),
          (c9_vol.coordPos, c9_vol.aabb))
    ∧ expansion_scan 7 [(.expand_selection_up, true), (.expand_selection_left, true)] [c9_vol]
      = some (expansion_adjusted c9_vol.cam (action_expansion .expand_selection_left),
          (c9_vol.cam, c9_vol.coordPos, c9_vol.aabb)) :=
  ⟨(c9_last_input_wins 7 [] [c9_vol] (.move_forward, true) (.move_right, true)
      (.expand_selection_up, true) (.expand_selection_left, true)).1 rfl c9_vol rfl,
   (c9_last_input_wins 7 [] [c9_vol] (.move_forward, true) (.move_right, true)
      (.expand_selection_up, true) (.expand_selection_left, true)).2 rfl c9_vol rfl⟩

/-- C10 (implicit: movement volume selection): the movement scan picks
volumes by client id only — its characterization never consults the
`Active` or tool-kind marks, a volume without them still receives
movement, and the snapshot feeding the emitted message comes from the
last-iterated matching volume — while the expansion scan additionally
requires both the `TerrainToolBox` and `Active` marks. -/
theorem c10_movement_selects_by_client_only (cid : ℕ) (inputs : List (InputAction × Bool))
    (vols : List Volume) :
    (movement_scan cid inputs vols
       = last_write_spec (fun ia => ia.1.is_move_action && ia.2)
          (fun v => v.clientId == cid)
          (fun ia v => (movement_adjusted v.cam (action_movement ia.1), (v.coordPos, v.aabb)))
          inputs vols)
    ∧ (expansion_scan cid inputs vols
       = last_write_spec (fun ia => ia.1.is_expand_action && ia.2)
          (fun v => v.terrain_tag && v.active_tag && v.clientId == cid)
          (fun ia v => (expansion_adjusted v.cam (action_expansion ia.1),
            (v.cam, v.coordPos, v.aabb)))
          inputs vols)
    ∧ (∀ v ia, v.clientId = cid → (ia.1.is_move_action && ia.2) = true →
        movement_scan cid [ia] [v]
          = some (movement_adjusted v.cam (action_movement ia.1), (v.coordPos, v.aabb))) := by
  refine ⟨last_write_scan_eq _ _ _ inputs vols, last_write_scan_eq _ _ _ inputs vols, ?_⟩
  intro v ia h1 h2
  subst h1
  simp [movement_scan, last_write_scan, h2, List.filter]
  simpa using h2

/-- Concrete volume for the C10 witness: no `Active` mark, no
`TerrainToolBox` mark. -/
def c10_vol : Volume :=
  ⟨7, CameraAdjustedDirection.default, V3.zero, AABB.new V3.zero ⟨1, 1, 1⟩, false, false, false⟩

/-- Witness for C10: a volume carrying neither mark still receives the
movement input. -/
theorem c10_movement_selects_by_client_only_witness :
    movement_scan 7 [(.move_down, true)] [c10_vol]
      = some (movement_adjusted c10_vol.cam (action_movement .move_down),
          (c10_vol.coordPos, c10_vol.aabb)) :=
  (c10_movement_selects_by_client_only 7 [(.move_down, true)] [c10_vol]).2.2
    c10_vol (.move_down, true) rfl rfl

/-! ## The coalescing emission step of `create_movement_system`
(selection_box.rs:503-547, claim C3) -/

/-- The `UpdateBounds` pending-correction component: the cumulative
target origin and bounds an outstanding local edit expects. -/
structure UpdateBounds where
  coord_pos : V3
  aabb : AABB
deriving DecidableEq, Repr

/-- Modelled from the spec: `level_map::TileData` (repository code not
under `src/`) — the palette-selected tile value plus a point, as built
by `TileData::new(tile_selection.val(), Point::zeros())`. -/
structure TileData where
  tile : ℤ
  point : V3
deriving DecidableEq, Repr

/-- The outbound messages this core emits that the claims mention. -/
inductive DataType where
  | updateSelectionBounds (client_id : ℕ) (coord_pos : V3) (aabb : AABB)
  | mapInsertion (store_history : Option ℕ) (aabb : AABB) (tile_data : TileData)
  | mapRemoval (store_history : Option ℕ) (aabb : AABB)
deriving DecidableEq, Repr

/-- `query.iter_mut(world).find(..)` followed by an in-place mutation:
update the first list entry satisfying `p` with `f`, returning the
updated entry (if any) and the updated list. -/
def update_first {α : Type} (p : α → Bool) (f : α → α) : List α → Option α × List α
  | [] => (none, [])
  | x :: xs =>
    if p x then (some (f x), f x :: xs)
    else
      let r := update_first p f xs
      (r.1, x :: r.2)

/-- The deferred emission step of the movement system for one computed
delta: fold the delta into an existing `UpdateBounds` of this client if
one exists (and send its cumulative target), otherwise create one at
`coord_pos + delta` (and send that); either way exactly one
`UpdateSelectionBounds` message carrying the live `SelectionBox` aabb is
appended. -/
def movement_exec (cid : ℕ) (delta snapCoord : V3) (snapAabb : AABB)
    (pendings : List (ℕ × UpdateBounds)) (msgs : List DataType) :
    List (ℕ × UpdateBounds) × List DataType :=
  let move_to_pos := snapCoord + delta
  let r := update_first (fun pr => pr.1 == cid)
      (fun pr => (pr.1, ⟨pr.2.coord_pos + delta, pr.2.aabb⟩)) pendings
  match r.1 with
  | some pr => (r.2, msgs ++ [.updateSelectionBounds cid pr.2.coord_pos snapAabb])
  | none =>
    (r.2 ++ [(cid, ⟨move_to_pos, snapAabb⟩)],
     msgs ++ [.updateSelectionBounds cid move_to_pos snapAabb])

theorem V3.add_assoc (a b c : V3) : a + b + c = a + (b + c) := by
  apply V3.ext <;> simp [Int.add_assoc]

/-- C3 (Coalescing): two movement deltas issued from an idle state (no
pending correction, no confirmation in between) leave exactly one
pending `UpdateBounds` for the client, targeting the start position plus
the vector sum of the deltas, and produce exactly two outbound
`UpdateSelectionBounds` messages carrying the cumulative absolute
targets `start + d1` and `start + d1 + d2`. -/
theorem c3_coalescing (cid : ℕ) (start : V3) (aabb : AABB) (d1 d2 : V3) :
    (movement_exec cid d2 start aabb
        (movement_exec cid d1 start aabb [] []).1
        (movement_exec cid d1 start aabb [] []).2).1
      = [(cid, ⟨start + (d1 + d2), aabb⟩)]
    ∧ (movement_exec cid d2 start aabb
        (movement_exec cid d1 start aabb [] []).1
        (movement_exec cid d1 start aabb [] []).2).2
      = [.updateSelectionBounds cid (start + d1) aabb,
         .updateSelectionBounds cid (start + (d1 + d2)) aabb] := by
  constructor <;>
    simp [movement_exec, update_first, V3.add_assoc]

/-! ## `create_update_bounds_system` (selection_box.rs:952-994, claim C4) -/

/-- The reconciliation write applied to one volume for one pending
`UpdateBounds`: the origin is always overwritten; the bounds only when
they actually differ and the volume holds the `Active` mark. -/
def apply_update_bounds (v : Volume) (u : UpdateBounds) : Volume :=
  { v with
    coordPos := u.coord_pos,
    aabb := if v.aabb ≠ u.aabb then (if v.active_tag then u.aabb else v.aabb) else v.aabb }

/-- One pass of `create_update_bounds_system`: every volume whose client
has a pending `UpdateBounds` (the first one found) gets the
reconciliation write, and each such found pending entity is removed. -/
def update_bounds_tick (vols : List Volume) (pendings : List (ℕ × UpdateBounds)) :
    List Volume × List (ℕ × UpdateBounds) :=
  (vols.map fun v =>
     match pendings.find? (fun pr => pr.1 == v.clientId) with
     | some pr => apply_update_bounds v pr.2
     | none => v,
   pendings.filter fun pr =>
     ! vols.any fun v =>
       decide (pendings.find? (fun q => q.1 == v.clientId) = some pr))

/-- C4 (Reconciliation frame condition): applying a client's pending
`UpdateBounds` to that client's volume always overwrites the origin with
the confirmed value, overwrites the bounds only when the volume holds
the `Active` mark (a non-Active volume keeps its bounds while the origin
still updates), and the pending entity is removed in every case. -/
theorem c4_reconciliation (v : Volume) (u : UpdateBounds) :
    (update_bounds_tick [v] [(v.clientId, u)]).1
      = [{ v with
            coordPos := u.coord_pos,
            aabb := if v.active_tag then u.aabb else v.aabb }]
    ∧ (update_bounds_tick [v] [(v.clientId, u)]).2 = [] := by
  constructor
  · simp only [update_bounds_tick, List.map, List.find?, beq_self_eq_true, apply_update_bounds]
    by_cases hab : v.aabb = u.aabb
    · cases hact : v.active_tag <;> simp [hab]
    · simp [hab]
  · simp [update_bounds_tick, List.find?]

/-! ## The outline-mesh margin (create_system, selection_box.rs:1029-1041,
claim C7) -/

/-- The per-face margin computed by the mesh generator from the absolute
world-space box dimensions: `smaller_i = min(0.9, |d_i|/2)` per axis,
then the minimum of the three. -/
def selection_box_margin (tdx tdy tdz : ℚ) : ℚ :=
  min (min (9/10) (|tdx| / 2)) (min (min (9/10) (|tdy| / 2)) (min (9/10) (|tdz| / 2)))

theorem min_fold_aux (m x y z : ℚ) :
    min (min m x) (min (min m y) (min m z)) = min m (min x (min y z)) := by
  apply le_antisymm
  · refine le_min (le_trans (min_le_left _ _) (min_le_left _ _)) ?_
    refine le_min (le_trans (min_le_left _ _) (min_le_right _ _)) ?_
    refine le_min ?_ ?_
    · exact le_trans (min_le_right _ _) (le_trans (min_le_left _ _) (min_le_right _ _))
    · exact le_trans (min_le_right _ _) (le_trans (min_le_right _ _) (min_le_right _ _))
  · refine le_min (le_min (min_le_left _ _) ?_)
      (le_min (le_min (min_le_left _ _) ?_) (le_min (min_le_left _ _) ?_))
    · exact le_trans (min_le_right _ _) (min_le_left _ _)
    · exact le_trans (min_le_right _ _) (le_trans (min_le_right _ _) (min_le_left _ _))
    · exact le_trans (min_le_right _ _) (le_trans (min_le_right _ _) (min_le_right _ _))

/-- C7 (Outline-mesh margin clamp): the generated margin equals
`min(0.9, half of the smallest absolute world-space dimension)`, and in
particular never exceeds that bound. -/
theorem c7_margin_clamp (tdx tdy tdz : ℚ) :
    selection_box_margin tdx tdy tdz
      = min (9/10) (min |tdx| (min |tdy| |tdz|) / 2)
    ∧ selection_box_margin tdx tdy tdz
      ≤ min (9/10) (min |tdx| (min |tdy| |tdz|) / 2) := by
  have key : selection_box_margin tdx tdy tdz
      = min (9/10) (min |tdx| (min |tdy| |tdz|) / 2) := by
    unfold selection_box_margin
    rw [min_fold_aux]
    congr 1
    rw [div_eq_mul_inv, div_eq_mul_inv, div_eq_mul_inv, div_eq_mul_inv]
    rw [← min_mul_of_nonneg _ _ (by norm_num : (0:ℚ) ≤ 2⁻¹),
        ← min_mul_of_nonneg _ _ (by norm_num : (0:ℚ) ≤ 2⁻¹)]
  exact ⟨key, le_of_eq key⟩

/-! ## `create_tile_tool_system` (selection_box.rs:670-750, claim C8) -/

/-- The input layer's view of one action this tick. -/
structure InputState where
  just_pressed : Bool
  is_held : Bool
deriving DecidableEq, Repr

/-- The tile tool's firing condition: just pressed, or held while the
active terrain box moved this tick. -/
def tile_tool_fires (st : InputState) (moved : Bool) : Bool :=
  st.just_pressed || (st.is_held && moved)

/-- Whether some active terrain volume of this client had its `CoordPos`
change this tick (the `maybe_changed`-filtered moved query). -/
def tile_tool_moved (cid : ℕ) (vols : List Volume) : Bool :=
  vols.any fun v => v.terrain_tag && v.active_tag && v.coord_changed && v.clientId == cid

/-- One insertion/removal attempt: build the candidate box
`AABB::new(coord_pos, dimensions)` and the candidate fill, consult the
external map's feasibility check (`can_change`), and emit the
`MapChange` message only on `Ok` — otherwise nothing at all. -/
def tile_tool_attempt (can_change : AABB → Option TileData → Bool) (is_insertion : Bool)
    (cid : ℕ) (tile_sel : ℤ) (coord dims : V3) : List DataType :=
  let aabb := AABB.new coord dims
  if is_insertion then
    let tile_data : TileData := ⟨tile_sel, V3.zero⟩
    if can_change aabb (some tile_data) then [.mapInsertion (some cid) aabb tile_data] else []
  else
    if can_change aabb none then [.mapRemoval (some cid) aabb] else []

/-- One pass of the tile tool system: for each insertion/removal input,
for each active terrain volume of this client, attempt the edit when the
firing condition holds.  The system's queries are read-only: no volume
state is touched, messages are the only output. -/
def tile_tool_tick (can_change : AABB → Option TileData → Bool) (cid : ℕ) (tile_sel : ℤ)
    (inputs : List (InputAction × InputState)) (vols : List Volume) : List DataType :=
  inputs.foldl
    (fun msgs ia =>
      if ia.1 == InputAction.insertion || ia.1 == InputAction.removal then
        (vols.filter fun v => v.terrain_tag && v.active_tag && v.clientId == cid).foldl
          (fun msgs2 v =>
            if tile_tool_fires ia.2 (tile_tool_moved cid vols) then
              msgs2 ++ tile_tool_attempt can_change (ia.1 == InputAction.insertion) cid tile_sel
                v.coordPos v.aabb.dimensions
            else msgs2)
          msgs
      else msgs)
    []

/-- C8 (Terrain edit validation): on an Active terrain tool box, a
firing insertion (resp. removal) attempt emits its `MapChange` message
iff the external feasibility check accepts the candidate fill; a failed
check or a non-firing input yields no message at all (and the system
mutates no volume state — its queries are read-only). -/
theorem c8_validation_gate (can_change : AABB → Option TileData → Bool)
    (cid : ℕ) (tile_sel : ℤ) (st : InputState) (v : Volume)
    (hterr : v.terrain_tag = true) (hact : v.active_tag = true) (hcid : v.clientId = cid) :
    (tile_tool_fires st (tile_tool_moved cid [v]) = true →
      tile_tool_tick can_change cid tile_sel [(.insertion, st)] [v]
        = (if can_change (AABB.new v.coordPos v.aabb.dimensions) (some ⟨tile_sel, V3.zero⟩)
           then [.mapInsertion (some cid) (AABB.new v.coordPos v.aabb.dimensions)
                  ⟨tile_sel, V3.zero⟩]
           else []))
    ∧ (tile_tool_fires st (tile_tool_moved cid [v]) = true →
      tile_tool_tick can_change cid tile_sel [(.removal, st)] [v]
        = (if can_change (AABB.new v.coordPos v.aabb.dimensions) none
           then [.mapRemoval (some cid) (AABB.new v.coordPos v.aabb.dimensions)]
           else []))
    ∧ (tile_tool_fires st (tile_tool_moved cid [v]) = false →
      tile_tool_tick can_change cid tile_sel [(.insertion, st)] [v] = []
      ∧ tile_tool_tick can_change cid tile_sel [(.removal, st)] [v] = []) := by
  subst hcid
  refine ⟨fun hf => ?_, fun hf => ?_, fun hf => ?_⟩
  · simp [tile_tool_tick, List.filter, hterr, hact, hf, tile_tool_attempt]
  · simp [tile_tool_tick, List.filter, hterr, hact, hf, tile_tool_attempt]
  · constructor <;> simp [tile_tool_tick, List.filter, hterr, hact, hf]

/-- Concrete Active terrain volume for the C8 witness. -/
def c8_vol : Volume :=
  ⟨3, CameraAdjustedDirection.default, V3.zero, AABB.new V3.zero ⟨2, 1, 2⟩, true, true, false⟩

/-- Witness for C8: with a feasibility check that rejects everything, a
firing insertion attempt emits nothing (silent drop); with one that
accepts everything, it emits exactly the `MapChange` message. -/
theorem c8_validation_gate_witness :
    tile_tool_tick (fun _ _ => false) 3 5 [(.insertion, ⟨true, false⟩)] [c8_vol] = []
    ∧ tile_tool_tick (fun _ _ => true) 3 5 [(.insertion, ⟨true, false⟩)] [c8_vol]
      = [.mapInsertion (some 3) (AABB.new c8_vol.coordPos c8_vol.aabb.dimensions)
          ⟨5, V3.zero⟩] :=
  ⟨(c8_validation_gate (fun _ _ => false) 3 5 ⟨true, false⟩ c8_vol rfl rfl rfl).1 rfl,
   (c8_validation_gate (fun _ _ => true) 3 5 ⟨true, false⟩ c8_vol rfl rfl rfl).1 rfl⟩
